import Mathlib

/-!
Verification of the FloatChat MCP core: the implementation code of the
repository's low-level design for the MCP approach (`src/docs/LLD_MCP.md`),
together with the RAG extraction helpers of the detailed working document
(`src/unnamed/part_008`).  Python strings are modelled as `List Char`; Python
dicts that the handlers only pass around are modelled by an opaque type
parameter `V`; dicts used as keyed maps (the session map, the tool registry,
the session context) are modelled as association lists with Python's update
semantics.
-/

/-- Python strings, modelled as lists of characters. -/
abbrev Str := List Char

/-- Python `str.upper()` (ASCII, which is all the source uses). -/
def pyUpper (s : Str) : Str := s.map Char.toUpper

/-- Model of the initial-segment test: `startsWith pat s` holds when `pat` is
an initial segment of `s` (used to build Python's substring operator `in`). -/
def startsWith : Str → Str → Bool
  | [], _ => true
  | _ :: _, [] => false
  | p :: ps, c :: cs => p == c && startsWith ps cs

/-- Python's substring test `pat in s`. -/
def containsSub (pat : Str) : Str → Bool
  | [] => startsWith pat []
  | c :: cs => startsWith pat (c :: cs) || containsSub pat cs

/-! ## SQL validation (`ArgoQueryTool._validate_sql_query`, LLD_MCP.md lines 300-322) -/

/-- The denylist of mutating-operation keywords checked by
`ArgoQueryTool._validate_sql_query`. -/
def dangerous_keywords : List Str :=
  ["DROP".data, "DELETE".data, "UPDATE".data, "INSERT".data, "ALTER".data,
   "CREATE".data, "TRUNCATE".data, "GRANT".data, "REVOKE".data]

/-- The allowlist of table names checked by `ArgoQueryTool._validate_sql_query`.
Note the source writes them in lowercase. -/
def allowed_tables : List Str :=
  ["argo_floats".data, "argo_profiles".data, "tool_executions".data]

/-- The first loop of `_validate_sql_query`: some denylisted keyword occurs as a
substring of the upper-cased query (`if keyword in sql_upper`). -/
def hasDangerousKeyword (sql_query : Str) : Bool :=
  dangerous_keywords.any fun kw => containsSub kw (pyUpper sql_query)

/-- The second loop of `_validate_sql_query`: some allowed table name (written in
lowercase in the source) occurs as a substring of the upper-cased query
(`if table in sql_upper`). -/
def referencesAllowedTable (sql_query : Str) : Bool :=
  allowed_tables.any fun t => containsSub t (pyUpper sql_query)

/-- Model of `ArgoQueryTool._validate_sql_query`: reject on any denylisted
keyword, otherwise admit exactly when an allowed table name is found in the
upper-cased query.  `false` means the query failed security validation
(Rejected); `true` means Admitted. -/
def _validate_sql_query (sql_query : Str) : Bool :=
  if hasDangerousKeyword sql_query then false
  else referencesAllowedTable sql_query

/-- Whitespace (or string boundary) on both sides: the decidable token-boundary
condition used to say a keyword occurs as a whole token. -/
def wsBoundary (pre post : Str) : Bool :=
  (match pre.getLast? with
   | none => true
   | some c => c.isWhitespace) &&
  (match post.head? with
   | none => true
   | some c => c.isWhitespace)

/-! ## Query execution (`ArgoQueryTool._execute_query` and `ArgoQueryTool.execute`,
LLD_MCP.md lines 269-357).  The PostgreSQL backend is abstracted as a function
from the final SQL text to either rows or a backend error; alongside the result
we record the list of SQL texts actually sent to the backend, so that
"the backend was never invoked" is an observable fact. -/

/-- The configured maximum result count for the `argo_query` tool
(`tools.argo_query.max_results` in `config/mcp_config.yaml`, LLD_MCP.md line 1111). -/
def max_results : Nat := 10000

/-- The limit-injection step of `_execute_query`:
`if 'LIMIT' not in sql_query.upper(): sql_query += f" LIMIT {limit}"`. -/
def addLimitClause (sql_query : Str) (limit : Nat) : Str :=
  if containsSub ("LIMIT".data) (pyUpper sql_query) then sql_query
  else sql_query ++ (" LIMIT ".data ++ (Nat.repr limit).data)

/-- Model of `ArgoQueryTool._execute_query`: inject the limit clause, send the
query to the backend, and return the rows.  The second component is the trace
of queries sent to the backend (one entry per backend invocation). -/
def _execute_query {ρ : Type} (db : Str → Except Str (List ρ))
    (sql_query : Str) (limit : Nat) : Except Str (List ρ) × List Str :=
  (db (addLimitClause sql_query limit), [addLimitClause sql_query limit])

/-- Number of rows in a backend outcome (0 when the backend failed). -/
def rowCount {ρ : Type} : Except Str (List ρ) → Nat
  | Except.ok rows => rows.length
  | Except.error _ => 0

/-- Outcome of `ArgoQueryTool.execute`: either the `ValueError` raised when
validation fails, or the success dictionary, or the `success: False`
dictionary produced when `_execute_query` raises. -/
inductive ExecOutcome (ρ : Type) where
  | raised (msg : Str)
  | ok (data : List ρ) (row_count : Nat) (query : Str)
  | failed (error : Str) (query : Str)
  deriving DecidableEq

/-- Model of `ArgoQueryTool.execute` (given that the required `sql_query`
parameter is present): validate, raising `ValueError` before any backend call
on failure; otherwise run `_execute_query` and wrap the rows, catching backend
errors into a `success: False` result.  The second component is the
backend-call trace. -/
def ArgoQueryTool_execute {ρ : Type} (db : Str → Except Str (List ρ))
    (sql_query : Str) (limit : Nat) : ExecOutcome ρ × List Str :=
  if _validate_sql_query sql_query = false then
    (ExecOutcome.raised ("SQL query failed security validation".data), [])
  else
    match _execute_query db sql_query limit with
    | (Except.ok rows, calls) => (ExecOutcome.ok rows rows.length sql_query, calls)
    | (Except.error e, calls) => (ExecOutcome.failed e sql_query, calls)

/-! ## SQL extraction from the raw LLM response (`extract_sql_query` and
`run_rag_query`, detailed working document `src/unnamed/part_008` lines 285-317).
The Python code uses `re.search` with the pattern ```` ```sql\s*(.*?)\s*``` ````
under `DOTALL | IGNORECASE`: the response matches exactly when an occurrence of
`` ```sql `` (case-insensitively) is followed, somewhere later, by a closing
`` ``` ``.  We model the search as a left-to-right scanner. -/

/-- Case-insensitive prefix test (models `re.IGNORECASE` matching of a literal). -/
def matchesCI : Str → Str → Bool
  | [], _ => true
  | _ :: _, [] => false
  | p :: ps, c :: cs => (p.toUpper == c.toUpper) && matchesCI ps cs

/-- Find the first case-insensitive occurrence of `pat` in the text, returning
the text before the occurrence and the text after it. -/
def splitFirstCI (pat : Str) : Str → Option (Str × Str)
  | [] => if matchesCI pat [] then some ([], []) else none
  | c :: cs =>
    if matchesCI pat (c :: cs) then some ([], (c :: cs).drop pat.length)
    else
      match splitFirstCI pat cs with
      | some (pre, post) => some (c :: pre, post)
      | none => none

/-- Python `str.strip()`: drop whitespace from both ends. -/
def pyStrip (s : Str) : Str :=
  ((s.dropWhile Char.isWhitespace).reverse.dropWhile Char.isWhitespace).reverse

/-- Model of `extract_sql_query`: find a fenced `` ```sql … ``` `` block
(case-insensitive opening fence, first closing fence after it), return its
stripped contents; return `none` when the pattern does not match. -/
def extract_sql_query (response_text : Str) : Option Str :=
  match splitFirstCI ("```sql".data) response_text with
  | none => none
  | some (_, rest) =>
    match splitFirstCI ("```".data) rest with
    | none => none
    | some (content, _) => some (pyStrip content)

/-- Observable behaviour of `run_rag_query` given the raw text the RAG chain
produced: the SQL query extracted (for logging) and the returned answer. -/
structure RagOutcome where
  sql_query : Option Str
  answer : Str
  deriving DecidableEq

/-- Model of `run_rag_query`, abstracted over the chain: the chain's raw output
text is the input, the answer returned is `result["result"]`, that same text,
and the extracted query is whatever `extract_sql_query` finds. -/
def run_rag_query (llm_text : Str) : RagOutcome :=
  { sql_query := extract_sql_query llm_text, answer := llm_text }

/-- The response text contains a fenced sql block: an occurrence of
`` ```sql `` (up to letter case) later closed by `` ``` `` (stated up to
`pyUpper` on both fences; backticks are unchanged by upper-casing). -/
def HasFencedSqlBlock (t : Str) : Prop :=
  ∃ pre kw mid close post,
    t = pre ++ kw ++ mid ++ close ++ post ∧
    pyUpper kw = pyUpper ("```sql".data) ∧
    pyUpper close = pyUpper ("```".data)

/-- Occurrence predicate: `pat` occurs case-insensitively somewhere in `t`. -/
def OccursCI (pat t : Str) : Prop :=
  ∃ a m b, t = a ++ m ++ b ∧ m.length = pat.length ∧ pyUpper m = pyUpper pat

/-- Executable form of `HasFencedSqlBlock`: the scan that `extract_sql_query`
performs, reduced to its success bit. -/
def fenceScan (t : Str) : Bool :=
  match splitFirstCI ("```sql".data) t with
  | none => false
  | some (_, rest) => (splitFirstCI ("```".data) rest).isSome

/-! ## The MCP protocol server (`MCPFloatChatServer`, LLD_MCP.md lines 19-170).
The server's session map (`self.sessions`, a Python dict) is an association
list with Python's assignment semantics; the tool registry is an association
list from tool name to tool.  Values the handlers only carry around
(parameter dicts, tool results, context values) are an opaque type `V`.
The event-loop clock reading used for response timestamps is the `now`
argument; the uuid generated for a missing session id is the `fresh`
argument. -/

/-- Python dict lookup `d.get(k)` / `k in d`. -/
def dget {α : Type} : List (Str × α) → Str → Option α
  | [], _ => none
  | (k, v) :: rest, key => if k = key then some v else dget rest key

/-- Python dict assignment `d[k] = v` (updates in place, appends when absent). -/
def dset {α : Type} : List (Str × α) → Str → α → List (Str × α)
  | [], key, v => [(key, v)]
  | (k, w) :: rest, key, v =>
    if k = key then (k, v) :: rest else (k, w) :: dset rest key v

/-- Model of `MCPMessageType` (LLD_MCP.md lines 26-32): the wire values are
`"initialize"`, `"tools/list"`, `"tools/call"`, `"context/update"`, `"error"`. -/
inductive MCPMessageType where
  | initType | toolsList | toolsCall | contextUpdate | errorType
  deriving DecidableEq

/-- The fields a request's `data` dict may carry, as read by the handlers
(`data.get("session_id")`, `data.get("tool_name")`, `data.get("parameters", {})`). -/
structure MsgData (V : Type) where
  session_id : Option Str
  tool_name : Option Str
  parameters : V
  deriving DecidableEq

/-- Model of `MCPMessage` as received by the server (LLD_MCP.md lines 34-40). -/
structure MCPMessage (V : Type) where
  type : MCPMessageType
  id : Str
  data : MsgData V
  timestamp : Int
  deriving DecidableEq

/-- The `data` dict of a response message. -/
inductive RespData (V : Type) where
  | errData (error : Str)
  | toolCallData (tool_name : Str) (result : V) (execution_time : Int)
  | toolsListData (tools : List V)
  | initData (session_id : Str)
  deriving DecidableEq

/-- Model of `MCPMessage` as sent back by the server. -/
structure MCPResponse (V : Type) where
  type : MCPMessageType
  id : Str
  data : RespData V
  timestamp : Int
  deriving DecidableEq

/-- The record appended to `self.sessions[session_id]["tool_calls"]`
(LLD_MCP.md lines 136-142). -/
structure ToolCall (V : Type) where
  tool_name : Str
  parameters : V
  result : V
  timestamp : Int
  deriving DecidableEq

/-- A session entry (`{"created_at": …, "context": {}, "tool_calls": []}`,
LLD_MCP.md lines 86-90). -/
structure Session (V : Type) where
  created_at : Int
  context : List (Str × V)
  tool_calls : List (ToolCall V)
  deriving DecidableEq

/-- A registered tool: its specification dict (as returned by
`get_specification`) and its `execute` capability, which receives the
parameters and the session context and either returns a result dict or
raises (modelled as `Except.error` with the exception text). -/
structure MCPTool (V : Type) where
  specification : V
  execute : V → List (Str × V) → Except Str V

/-- The session map. -/
abbrev SessionMap (V : Type) := List (Str × Session V)

/-- Model of `self._create_error_message(message_id, error)`
(LLD_MCP.md lines 157-164). -/
def _create_error_message {V : Type} (message_id : Str) (error : Str) (now : Int) :
    MCPResponse V :=
  { type := MCPMessageType.errorType, id := message_id,
    data := RespData.errData error, timestamp := now }

/-- Rendering of an optional string into an f-string, as Python would
(`None` prints as `None`). -/
def pyShowOpt : Option Str → Str
  | none => "None".data
  | some s => s

/-- Model of `self.sessions.get(session_id, {}).get("context", {})` with a
possibly missing `session_id` (LLD_MCP.md line 130). -/
def sessionContext {V : Type} (sessions : SessionMap V) : Option Str → List (Str × V)
  | none => []
  | some sid =>
    match dget sessions sid with
    | some s => s.context
    | none => []

/-- Model of `MCPFloatChatServer._handle_tool_call` (LLD_MCP.md lines 119-155):
look the tool up (responding `Tool '…' not found` when absent), execute it with
the session's context, append a `ToolCall` record to the session history when
the session exists, and answer with the result; an exception from the tool is
caught and turned into a `Tool execution error: …` error response. -/
def _handle_tool_call {V : Type} (tools : List (Str × MCPTool V))
    (sessions : SessionMap V) (now : Int) (message : MCPMessage V) :
    SessionMap V × MCPResponse V :=
  let tool_name := message.data.tool_name
  let parameters := message.data.parameters
  let session_id := message.data.session_id
  match tool_name.bind (dget tools) with
  | none =>
    (sessions, _create_error_message message.id
      ("Tool '".data ++ pyShowOpt tool_name ++ "' not found".data) now)
  | some tool =>
    let context := sessionContext sessions session_id
    match tool.execute parameters context with
    | Except.error e =>
      (sessions, _create_error_message message.id
        ("Tool execution error: ".data ++ e) now)
    | Except.ok result =>
      let sessions' :=
        match session_id with
        | none => sessions
        | some sid =>
          match dget sessions sid with
          | none => sessions
          | some s =>
            dset sessions sid
              { s with tool_calls := s.tool_calls ++
                  [{ tool_name := pyShowOpt tool_name, parameters := parameters,
                     result := result, timestamp := message.timestamp }] }
      (sessions',
        { type := MCPMessageType.toolsCall, id := message.id,
          data := RespData.toolCallData (pyShowOpt tool_name) result
            (now - message.timestamp),
          timestamp := now })

/-- Model of the server's handler for `initialize` messages
(`MCPFloatChatServer`, LLD_MCP.md lines 80-104): take the supplied session id
(or the freshly generated uuid when it is missing or empty), and
unconditionally store a brand-new session under it. -/
def _handle_init {V : Type} (sessions : SessionMap V) (fresh : Str)
    (now : Int) (message : MCPMessage V) : SessionMap V × MCPResponse V :=
  let session_id :=
    match message.data.session_id with
    | none => fresh
    | some s => if s = [] then fresh else s
  (dset sessions session_id
      { created_at := message.timestamp, context := [], tool_calls := [] },
    { type := MCPMessageType.initType, id := message.id,
      data := RespData.initData session_id, timestamp := now })

/-- Model of `MCPFloatChatServer._handle_tools_list` (LLD_MCP.md lines 106-117). -/
def _handle_tools_list {V : Type} (tools : List (Str × MCPTool V))
    (sessions : SessionMap V) (now : Int) (message : MCPMessage V) :
    SessionMap V × MCPResponse V :=
  (sessions,
    { type := MCPMessageType.toolsList, id := message.id,
      data := RespData.toolsListData (tools.map fun p => p.2.specification),
      timestamp := now })

/-- Model of `MCPFloatChatServer.handle_message` (LLD_MCP.md lines 64-78):
dispatch on the message type alone.  The `context/update` branch calls
`self._handle_context_update`, a method that is defined nowhere in the
repository, so that call raises `AttributeError`, which the surrounding
`except` turns into an error response; the `else` branch answers
`Unknown message type`. -/
def handle_message {V : Type} (tools : List (Str × MCPTool V))
    (sessions : SessionMap V) (fresh : Str) (now : Int)
    (message : MCPMessage V) : SessionMap V × MCPResponse V :=
  match message.type with
  | MCPMessageType.initType => _handle_init sessions fresh now message
  | MCPMessageType.toolsList => _handle_tools_list tools sessions now message
  | MCPMessageType.toolsCall => _handle_tool_call tools sessions now message
  | MCPMessageType.contextUpdate =>
    (sessions, _create_error_message message.id
      ("'MCPFloatChatServer' object has no attribute '_handle_context_update'".data) now)
  | MCPMessageType.errorType =>
    (sessions, _create_error_message message.id ("Unknown message type".data) now)

/-! ## Concrete inputs used by the claim witnesses and counterexamples. -/

/-- The round-trip scenario's query (spec section 8; also the query of the
repository's own unit test `TestArgoQueryTool.test_sql_validation`, with the
limit of the scenario). -/
def roundTripQuery : Str := "SELECT * FROM argo_floats LIMIT 1000".data

/-- A SELECT query whose column name `created_at` contains the denylisted
keyword `CREATE` as a proper substring. -/
def createdAtQuery : Str := "SELECT created_at FROM argo_floats".data

/-- A SELECT query whose column name `updated_at` contains the denylisted
keyword `UPDATE` as a proper substring. -/
def updatedAtQuery : Str := "SELECT updated_at FROM argo_profiles".data

/-- A SELECT query carrying no `LIMIT` clause of its own. -/
def plainSelect : Str := "SELECT * FROM argo_floats".data

/-- A stub backend that never fails and returns no rows. -/
def dbStub : Str → Except Str (List Nat) := fun _ => Except.ok []

/-- A stub backend holding more rows than the configured maximum: for the query
it receives (which ends in `LIMIT 10001`) it returns exactly 10001 rows,
honouring that limit clause. -/
def bigDB : Str → Except Str (List Nat) := fun _ => Except.ok (List.replicate 10001 0)

/-- A stub tool whose capability always succeeds. -/
def okTool : MCPTool Unit := { specification := (), execute := fun _ _ => Except.ok () }

/-- A stub tool whose capability always raises. -/
def failTool : MCPTool Unit :=
  { specification := (), execute := fun _ _ => Except.error ("boom".data) }

/-- A pre-existing session with empty history and context. -/
def demoSession : Session Unit := { created_at := 0, context := [], tool_calls := [] }

/-- A pre-existing session with non-empty history and context. -/
def busySession : Session Unit :=
  { created_at := 5, context := [("region".data, ())],
    tool_calls := [{ tool_name := "t0".data, parameters := (), result := (),
                     timestamp := 1 }] }

/-- A `tools/call` message naming a tool absent from the registry. -/
def unknownToolMsg : MCPMessage Unit :=
  { type := MCPMessageType.toolsCall, id := "m1".data,
    data := { session_id := some ("s1".data), tool_name := some ("nonexistent_tool".data),
              parameters := () },
    timestamp := 3 }

/-- A `tools/call` message for the failing stub tool on session `s1`. -/
def callFailMsg : MCPMessage Unit :=
  { type := MCPMessageType.toolsCall, id := "m2".data,
    data := { session_id := some ("s1".data), tool_name := some ("t1".data),
              parameters := () },
    timestamp := 3 }

/-- A `tools/call` message for the succeeding stub tool on session `s1`. -/
def callOkMsg : MCPMessage Unit :=
  { type := MCPMessageType.toolsCall, id := "m3".data,
    data := { session_id := some ("s1".data), tool_name := some ("t2".data),
              parameters := () },
    timestamp := 4 }

/-- A `tools/call` message sent on a connection that never sent `initialize`
(its session id is unknown to the server). -/
def uninitCallMsg : MCPMessage Unit :=
  { type := MCPMessageType.toolsCall, id := "m4".data,
    data := { session_id := some ("sX".data), tool_name := some ("query_argo_database".data),
              parameters := () },
    timestamp := 3 }

/-- A second such message, used by the amended-claim witness. -/
def uninitCallMsg2 : MCPMessage Unit :=
  { type := MCPMessageType.toolsCall, id := "m5".data,
    data := { session_id := none, tool_name := some ("get_float_metadata".data),
              parameters := () },
    timestamp := 10 }

/-- An `initialize` message carrying an already-known session id. -/
def reinitMsg : MCPMessage Unit :=
  { type := MCPMessageType.initType, id := "m6".data,
    data := { session_id := some ("s9".data), tool_name := none, parameters := () },
    timestamp := 42 }

/-- A prose-only LLM response with no fenced sql block. -/
def proseText : Str := "Found floats in the Arabian Sea.".data

/-! ## General lemmas about the string primitives and the scanner. -/

theorem startsWith_iff (pat s : Str) :
    startsWith pat s = true ↔ ∃ b, s = pat ++ b := by
  induction pat generalizing s with
  | nil => simp [startsWith]
  | cons p ps ih =>
    cases s with
    | nil => simp [startsWith]
    | cons c cs =>
      simp only [startsWith, Bool.and_eq_true, beq_iff_eq, ih]
      constructor
      · rintro ⟨rfl, b, rfl⟩
        exact ⟨b, rfl⟩
      · rintro ⟨b, hb⟩
        cases hb
        exact ⟨rfl, b, rfl⟩

theorem containsSub_iff (pat s : Str) :
    containsSub pat s = true ↔ ∃ a b, s = a ++ pat ++ b := by
  induction s with
  | nil =>
    simp only [containsSub, startsWith_iff]
    constructor
    · rintro ⟨b, hb⟩
      exact ⟨[], b, by simpa using hb⟩
    · rintro ⟨a, b, hab⟩
      rcases List.append_eq_nil.1 (List.append_eq_nil.1 hab.symm).1 with ⟨rfl, rfl⟩
      exact ⟨b, hab⟩
  | cons c cs ih =>
    simp only [containsSub, Bool.or_eq_true, startsWith_iff, ih]
    constructor
    · rintro (⟨b, hb⟩ | ⟨a, b, hb⟩)
      · exact ⟨[], b, by simpa using hb⟩
      · exact ⟨c :: a, b, by simp [hb]⟩
    · rintro ⟨a, b, hab⟩
      cases a with
      | nil => exact Or.inl ⟨b, by simpa using hab⟩
      | cons a0 as =>
        right
        refine ⟨as, b, ?_⟩
        simpa using List.tail_eq_of_cons_eq hab

/-- Any denylisted keyword occurring as a substring of the upper-cased query
makes the validator reject, whatever else the query contains. -/
theorem validate_false_of_keyword_sub (q kw : Str)
    (hkw : kw ∈ dangerous_keywords) (a b : Str) (hq : pyUpper q = a ++ kw ++ b) :
    hasDangerousKeyword q = true ∧ _validate_sql_query q = false := by
  have hd : hasDangerousKeyword q = true :=
    List.any_eq_true.2 ⟨kw, hkw, (containsSub_iff kw (pyUpper q)).2 ⟨a, b, hq⟩⟩
  exact ⟨hd, by simp [_validate_sql_query, hd]⟩

theorem matchesCI_iff (pat s : Str) :
    matchesCI pat s = true ↔
      ∃ m b, s = m ++ b ∧ m.length = pat.length ∧ pyUpper m = pyUpper pat := by
  induction pat generalizing s with
  | nil =>
    simp only [matchesCI, true_iff]
    exact ⟨[], s, by simp [pyUpper]⟩
  | cons p ps ih =>
    cases s with
    | nil =>
      constructor
      · intro h; simp [matchesCI] at h
      · rintro ⟨m, b, hmb, hlen, -⟩
        rcases List.append_eq_nil.1 hmb.symm with ⟨rfl, -⟩
        simp at hlen
    | cons c cs =>
      simp only [matchesCI, Bool.and_eq_true, beq_iff_eq, ih]
      constructor
      · rintro ⟨hpc, m, b, rfl, hlen, hup⟩
        refine ⟨c :: m, b, rfl, by simp [hlen], ?_⟩
        simp [pyUpper] at hup ⊢
        exact ⟨hpc.symm, hup⟩
      · rintro ⟨m, b, hmb, hlen, hup⟩
        cases m with
        | nil => simp at hlen
        | cons m0 ms =>
          rcases List.cons_eq_cons.1 hmb with ⟨rfl, rfl⟩
          simp [pyUpper] at hup hlen
          exact ⟨hup.1.symm, ms, b, rfl, hlen, hup.2⟩

theorem splitFirstCI_eq_some (pat t a b : Str)
    (h : splitFirstCI pat t = some (a, b)) :
    ∃ m, t = a ++ m ++ b ∧ m.length = pat.length ∧ pyUpper m = pyUpper pat := by
  induction t generalizing a b with
  | nil =>
    by_cases hm : matchesCI pat [] = true
    · rcases (matchesCI_iff pat []).1 hm with ⟨m, b', hmb, hlen, hup⟩
      rcases List.append_eq_nil.1 hmb.symm with ⟨rfl, rfl⟩
      simp [splitFirstCI, hm] at h
      rcases h with ⟨rfl, rfl⟩
      exact ⟨[], by simp, by simpa using hlen, by simpa [pyUpper] using hup⟩
    · simp [splitFirstCI, hm] at h
  | cons c cs ih =>
    by_cases hm : matchesCI pat (c :: cs) = true
    · simp [splitFirstCI, hm] at h
      rcases h with ⟨rfl, rfl⟩
      rcases (matchesCI_iff pat (c :: cs)).1 hm with ⟨m, b', hmb, hlen, hup⟩
      refine ⟨m, ?_, hlen, hup⟩
      have hb' : (c :: cs).drop pat.length = b' := by
        rw [hmb, ← hlen]
        exact List.drop_left m b'
      rw [hb', hmb]
      simp
    · simp only [splitFirstCI, hm, if_false] at h
      cases hrec : splitFirstCI pat cs with
      | none => rw [hrec] at h; simp at h
      | some pp =>
        rw [hrec] at h
        rcases pp with ⟨pre, post⟩
        simp at h
        rcases h with ⟨rfl, rfl⟩
        rcases ih pre post hrec with ⟨m, hcs, hlen, hup⟩
        exact ⟨m, by simp [hcs], hlen, hup⟩

theorem splitFirstCI_isSome_of_occurs (pat t : Str) (h : OccursCI pat t) :
    (splitFirstCI pat t).isSome = true := by
  induction t with
  | nil =>
    rcases h with ⟨a, m, b, hmb, hlen, hup⟩
    have habc : a = [] ∧ m = [] ∧ b = [] := by
      have h0 := hmb.symm
      simp only [List.append_eq_nil] at h0
      tauto
    rcases habc with ⟨rfl, rfl, rfl⟩
    have hm : matchesCI pat [] = true :=
      (matchesCI_iff pat []).2 ⟨[], [], by simp, hlen, hup⟩
    simp [splitFirstCI, hm]
  | cons c cs ih =>
    by_cases hm : matchesCI pat (c :: cs) = true
    · simp [splitFirstCI, hm]
    · rcases h with ⟨a, m, b, hmb, hlen, hup⟩
      cases a with
      | nil =>
        exact absurd ((matchesCI_iff pat (c :: cs)).2
          ⟨m, b, by simpa using hmb, hlen, hup⟩) hm
      | cons a0 as =>
        rcases List.cons_eq_cons.1 hmb with ⟨rfl, hcs⟩
        have := ih ⟨as, m, b, hcs, hlen, hup⟩
        simp only [splitFirstCI, hm, if_false]
        cases hrec : splitFirstCI pat cs with
        | none => rw [hrec] at this; simp at this
        | some pp => rcases pp with ⟨pre, post⟩; simp

theorem splitFirstCI_min (pat t a b : Str)
    (h : splitFirstCI pat t = some (a, b)) (a' m' b' : Str)
    (h' : t = a' ++ m' ++ b') (hlen : m'.length = pat.length)
    (hup : pyUpper m' = pyUpper pat) :
    a.length ≤ a'.length := by
  induction t generalizing a b a' b' with
  | nil =>
    by_cases hm : matchesCI pat [] = true
    · simp [splitFirstCI, hm] at h
      simp [h.1]
    · simp [splitFirstCI, hm] at h
  | cons c cs ih =>
    by_cases hm : matchesCI pat (c :: cs) = true
    · simp [splitFirstCI, hm] at h
      simp [h.1]
    · simp only [splitFirstCI, hm, if_false] at h
      cases a' with
      | nil =>
        exact absurd ((matchesCI_iff pat (c :: cs)).2
          ⟨m', b', by simpa using h', hlen, hup⟩) hm
      | cons a0 as =>
        rcases List.cons_eq_cons.1 h' with ⟨rfl, hcs⟩
        cases hrec : splitFirstCI pat cs with
        | none => rw [hrec] at h; simp at h
        | some pp =>
          rcases pp with ⟨pre, post⟩
          rw [hrec] at h
          simp at h
          rcases h with ⟨rfl, rfl⟩
          simpa using Nat.succ_le_succ (ih pre post hrec as b' hcs)

theorem length_of_pyUpper_eq {m pat : Str} (h : pyUpper m = pyUpper pat) :
    m.length = pat.length := by
  have := congrArg List.length h
  simpa [pyUpper] using this

theorem hasFencedSqlBlock_iff (t : Str) :
    HasFencedSqlBlock t ↔ fenceScan t = true := by
  constructor
  · rintro ⟨pre, kw, mid, close, post, rfl, hkw, hclose⟩
    have hkl : kw.length = ("```sql".data).length := length_of_pyUpper_eq hkw
    have hcl : close.length = ("```".data).length := length_of_pyUpper_eq hclose
    have hocc1 : OccursCI ("```sql".data) (pre ++ kw ++ mid ++ close ++ post) :=
      ⟨pre, kw, mid ++ close ++ post, by simp, hkl, hkw⟩
    rcases Option.isSome_iff_exists.1 (splitFirstCI_isSome_of_occurs _ _ hocc1)
      with ⟨⟨a, rest⟩, h1⟩
    rcases splitFirstCI_eq_some _ _ _ _ h1 with ⟨m, hdecomp, hml, hmu⟩
    have hmin : a.length ≤ pre.length :=
      splitFirstCI_min _ _ _ _ h1 pre kw (mid ++ close ++ post) (by simp) hkl hkw
    have hrest : rest = ((pre ++ kw ++ mid).drop (a.length + m.length)) ++ (close ++ post) := by
      have h2 : ((a ++ m) ++ rest) = ((pre ++ kw ++ mid) ++ (close ++ post)) := by
        rw [← hdecomp]; simp
      have h3 : rest = ((pre ++ kw ++ mid) ++ (close ++ post)).drop (a ++ m).length := by
        rw [← h2]; exact (List.drop_left (a ++ m) rest).symm
      have hle : (a ++ m).length ≤ (pre ++ kw ++ mid).length := by
        simp only [List.length_append]
        have : m.length = kw.length := by rw [hml, hkl]
        omega
      rw [h3, List.drop_append_eq_append_drop, Nat.sub_eq_zero_of_le hle]
      simp
    have hocc2 : OccursCI ("```".data) rest :=
      ⟨(pre ++ kw ++ mid).drop (a.length + m.length), close, post,
        by rw [hrest]; simp, hcl, hclose⟩
    have h2 := splitFirstCI_isSome_of_occurs _ _ hocc2
    unfold fenceScan
    rw [h1]
    exact h2
  · intro h
    unfold fenceScan at h
    cases h1 : splitFirstCI ("```sql".data) t with
    | none => rw [h1] at h; simp at h
    | some pr =>
      rcases pr with ⟨a, rest⟩
      rw [h1] at h
      simp only at h
      rcases Option.isSome_iff_exists.1 h with ⟨⟨c, d⟩, h2⟩
      rcases splitFirstCI_eq_some _ _ _ _ h1 with ⟨m1, ht, -, hu1⟩
      rcases splitFirstCI_eq_some _ _ _ _ h2 with ⟨m2, hrest, -, hu2⟩
      exact ⟨a, m1, c, m2, d, by rw [ht, hrest]; simp, hu1, hu2⟩

theorem dget_dset_self {α : Type} (m : List (Str × α)) (k : Str) (v : α) :
    dget (dset m k v) k = some v := by
  induction m with
  | nil => simp [dget, dset]
  | cons p rest ih =>
    rcases p with ⟨k', w⟩
    by_cases hk : k' = k
    · simp [dget, dset, hk]
    · simp [dget, dset, hk, ih]

/-! ## Claims. -/

/-- C1 (code bug witness): the validator evaluated at the round-trip scenario's
query `SELECT * FROM argo_floats LIMIT 1000`.  The query contains no denylisted
keyword and does reference the allowed entity `argo_floats` (case-insensitively),
yet `_validate_sql_query` returns `false` (rejected), because the allowed-table
loop compares the lowercase table names against the upper-cased query, which can
never match.  The same happens on `SELECT * FROM argo_floats LIMIT 10`, the very
query the repository's own unit test `TestArgoQueryTool.test_sql_validation`
asserts to validate successfully — the code contradicts its own test, so the
round-trip ask can never reach execution or composition. -/
theorem validator_rejects_round_trip_query :
    hasDangerousKeyword roundTripQuery = false ∧
    containsSub ("ARGO_FLOATS".data) (pyUpper roundTripQuery) = true ∧
    _validate_sql_query roundTripQuery = false ∧
    _validate_sql_query ("SELECT * FROM argo_floats LIMIT 10".data) = false := by
  refine ⟨by decide, by decide, by decide, by decide⟩

/-- C2: whenever validation fails (the query is not admitted),
`ArgoQueryTool.execute` raises the `ValueError` before any backend call: the
outcome is `raised` and the backend-call trace is empty, for every backend. -/
theorem execute_never_calls_backend_when_not_admitted {ρ : Type}
    (db : Str → Except Str (List ρ)) (sql_query : Str) (limit : Nat)
    (h : _validate_sql_query sql_query = false) :
    ArgoQueryTool_execute db sql_query limit =
      (ExecOutcome.raised ("SQL query failed security validation".data), []) := by
  simp [ArgoQueryTool_execute, h]

/-- C2 witness: the rejected query `DROP TABLE argo_floats` with a stub backend. -/
theorem execute_never_calls_backend_when_not_admitted_witness :
    _validate_sql_query ("DROP TABLE argo_floats".data) = false ∧
    ArgoQueryTool_execute dbStub ("DROP TABLE argo_floats".data) 1000 =
      (ExecOutcome.raised ("SQL query failed security validation".data), []) :=
  ⟨by decide,
    execute_never_calls_backend_when_not_admitted dbStub ("DROP TABLE argo_floats".data)
      1000 (by decide)⟩

/-- C3: every query containing a denylisted keyword as a whole
whitespace-delimited token, in any casing, is rejected by the validator.
(The code checks substring containment of the upper-cased query, which the
whole-token occurrence implies.) -/
theorem validator_rejects_denylisted_whole_token (pre kw post : Str)
    (hkw : pyUpper kw ∈ dangerous_keywords)
    (_hws : wsBoundary pre post = true) :
    _validate_sql_query (pre ++ kw ++ post) = false :=
  (validate_false_of_keyword_sub (pre ++ kw ++ post) (pyUpper kw) hkw
    (pyUpper pre) (pyUpper post) (by simp [pyUpper])).2

/-- C3 witness: the mixed-case keyword `dRoP` as a whole token between
whitespace. -/
theorem validator_rejects_denylisted_whole_token_witness :
    _validate_sql_query ("sElEcT ".data ++ "dRoP".data ++ " TABLE argo_floats".data)
      = false :=
  validator_rejects_denylisted_whole_token ("sElEcT ".data) ("dRoP".data)
    (" TABLE argo_floats".data) (by decide) (by decide)

/-- C4 counterexample: with requested cap 10001 and configured maximum 10000,
`_execute_query` sends the query `… LIMIT 10001` to the backend — the requested
cap verbatim, not `min(requested, configured_max)` — and with a backend holding
10001 rows (which honours the limit clause it was sent) the execution returns
10001 > 10000 rows, violating "at most m rows whenever r > m". -/
theorem row_cap_not_min_counterexample :
    10001 > max_results ∧
    (_execute_query bigDB plainSelect 10001).2 =
      ["SELECT * FROM argo_floats LIMIT 10001".data] ∧
    rowCount (_execute_query bigDB plainSelect 10001).1 = 10001 := by
  refine ⟨by decide, by decide, ?_⟩
  have h : rowCount ((Except.ok (List.replicate 10001 (0 : Nat))) : Except Str (List Nat))
      = 10001 := by
    show (List.replicate 10001 (0 : Nat)).length = 10001
    exact List.length_replicate 10001 0
  exact h

/-- C4 amended: for every admitted query without a `LIMIT` token of its own,
executed with requested row cap `limit`, the query sent to the backend carries
exactly `LIMIT {limit}` — the requested cap; the configured maximum
`max_results` is never consulted, so the effective cap is the requested cap,
not `min(requested, configured_max)`. -/
theorem executor_applies_requested_cap {ρ : Type} (db : Str → Except Str (List ρ))
    (sql_query : Str) (limit : Nat)
    (h : containsSub ("LIMIT".data) (pyUpper sql_query) = false) :
    (_execute_query db sql_query limit).2 =
      [sql_query ++ (" LIMIT ".data ++ (Nat.repr limit).data)] := by
  simp [_execute_query, addLimitClause, h]

/-- C4 amended witness: requesting cap 7 on a bare SELECT sends `… LIMIT 7`. -/
theorem executor_applies_requested_cap_witness :
    (_execute_query dbStub plainSelect 7).2 =
      ["SELECT * FROM argo_floats LIMIT 7".data] := by
  have h := executor_applies_requested_cap dbStub plainSelect 7 (by decide)
  rw [h]
  decide

/-- C5 counterexample: in `SELECT created_at FROM argo_floats` the keyword
`CREATE` occurs only as a proper substring of the identifier `created_at`, yet
the mutating-keyword loop fires (substring match, not whole-token match) and
the validator rejects the query. -/
theorem substring_keyword_rejected_counterexample :
    hasDangerousKeyword createdAtQuery = true ∧
    _validate_sql_query createdAtQuery = false := by
  refine ⟨by decide, by decide⟩

/-- C5 amended: denylist matching is by substring containment of the upper-cased
query, so a denylisted keyword occurring inside a longer identifier (such as
`created_at` or `updated_at`) does trigger the mutating-keyword rejection. -/
theorem keyword_substring_triggers_rejection (q kw a b : Str)
    (hkw : kw ∈ dangerous_keywords) (hq : pyUpper q = a ++ kw ++ b) :
    hasDangerousKeyword q = true ∧ _validate_sql_query q = false :=
  validate_false_of_keyword_sub q kw hkw a b hq

/-- C5 amended witness: `UPDATE` inside the identifier `updated_at`. -/
theorem keyword_substring_triggers_rejection_witness :
    hasDangerousKeyword updatedAtQuery = true ∧
    _validate_sql_query updatedAtQuery = false :=
  keyword_substring_triggers_rejection updatedAtQuery ("UPDATE".data)
    ("SELECT ".data) ("D_AT FROM ARGO_PROFILES".data) (by decide) (by decide)

/-- C6: a `tools/call` message naming a tool absent from the registry produces
an `Error` response whose `data.error` contains `not found`, and the session
map — hence every session's tool-call history and context map — is unchanged. -/
theorem unknown_tool_error_and_sessions_unchanged {V : Type}
    (tools : List (Str × MCPTool V)) (sessions : SessionMap V) (fresh : Str)
    (now : Int) (msg : MCPMessage V)
    (htype : msg.type = MCPMessageType.toolsCall)
    (habsent : msg.data.tool_name.bind (dget tools) = none) :
    (handle_message tools sessions fresh now msg).1 = sessions ∧
    (handle_message tools sessions fresh now msg).2 =
      _create_error_message msg.id
        ("Tool '".data ++ pyShowOpt msg.data.tool_name ++ "' not found".data) now ∧
    containsSub ("not found".data)
      ("Tool '".data ++ pyShowOpt msg.data.tool_name ++ "' not found".data) = true := by
  rcases msg with ⟨ty, mid, mdata, mts⟩
  have hty : ty = MCPMessageType.toolsCall := htype
  subst hty
  have hab : mdata.tool_name.bind (dget tools) = none := habsent
  refine ⟨?_, ?_, ?_⟩
  · simp [handle_message, _handle_tool_call, hab]
  · simp [handle_message, _handle_tool_call, hab]
  · refine (containsSub_iff _ _).2
      ⟨"Tool '".data ++ pyShowOpt mdata.tool_name ++ "' ".data, [], ?_⟩
    have hsp : ("' not found".data : Str) = "' ".data ++ "not found".data := by decide
    rw [hsp]
    simp

/-- C6 witness: calling `nonexistent_tool` against an empty registry leaves the
session (with its non-empty history) untouched, and the error text contains
`not found`. -/
theorem unknown_tool_error_and_sessions_unchanged_witness :
    (handle_message ([] : List (Str × MCPTool Unit)) [("s1".data, busySession)] [] 7
        unknownToolMsg).1 = [("s1".data, busySession)] ∧
    containsSub ("not found".data)
      ("Tool '".data ++ pyShowOpt unknownToolMsg.data.tool_name ++ "' not found".data)
      = true :=
  ⟨(unknown_tool_error_and_sessions_unchanged [] [("s1".data, busySession)] [] 7
      unknownToolMsg rfl rfl).1,
   (unknown_tool_error_and_sessions_unchanged [] [("s1".data, busySession)] [] 7
      unknownToolMsg rfl rfl).2.2⟩

/-- C7 counterexample: a dispatched tool invocation on the existing session `s1`
whose tool raises an error.  The handler answers with the error response but
appends nothing: the session map after handling is identical to the one before
(history still the single old record), so no `ToolCall` record containing the
error was appended. -/
theorem tool_error_no_history_append_counterexample :
    busySession.tool_calls.length = 1 ∧
    handle_message [("t1".data, failTool)] [("s1".data, busySession)] [] 9 callFailMsg
      = ([("s1".data, busySession)],
         _create_error_message ("m2".data) ("Tool execution error: ".data ++ "boom".data) 9)
      := by
  refine ⟨by decide, by rfl⟩

/-- C7 amended: on an existing session, a `ToolCall` record (tool name,
parameters, result, message timestamp) is appended to the session history
exactly when the tool's capability returns a result; when the capability fails
with an error, the response is an `Error` message and no record is appended
(the session map is unchanged). -/
theorem history_append_only_on_success {V : Type}
    (tools : List (Str × MCPTool V)) (sessions : SessionMap V) (fresh : Str) (now : Int)
    (msg : MCPMessage V) (name : Str) (tool : MCPTool V) (sid : Str) (s : Session V)
    (htype : msg.type = MCPMessageType.toolsCall)
    (hname : msg.data.tool_name = some name)
    (hsid : msg.data.session_id = some sid)
    (htool : dget tools name = some tool)
    (hsess : dget sessions sid = some s) :
    (∀ r, tool.execute msg.data.parameters s.context = Except.ok r →
      (handle_message tools sessions fresh now msg).1 =
        dset sessions sid
          { s with tool_calls := s.tool_calls ++
              [{ tool_name := name, parameters := msg.data.parameters,
                 result := r, timestamp := msg.timestamp }] } ∧
      (handle_message tools sessions fresh now msg).2 =
        { type := MCPMessageType.toolsCall, id := msg.id,
          data := RespData.toolCallData name r (now - msg.timestamp),
          timestamp := now }) ∧
    (∀ e, tool.execute msg.data.parameters s.context = Except.error e →
      (handle_message tools sessions fresh now msg).1 = sessions ∧
      (handle_message tools sessions fresh now msg).2 =
        _create_error_message msg.id ("Tool execution error: ".data ++ e) now) := by
  rcases msg with ⟨ty, mid, mdata, mts⟩
  have hty : ty = MCPMessageType.toolsCall := htype
  subst hty
  have hn : mdata.tool_name = some name := hname
  have hs : mdata.session_id = some sid := hsid
  constructor
  · intro r hr
    constructor
    · simp [handle_message, _handle_tool_call, hn, hs, htool, sessionContext, hsess,
        hr, pyShowOpt]
    · simp [handle_message, _handle_tool_call, hn, hs, htool, sessionContext, hsess,
        hr, pyShowOpt]
  · intro e he
    constructor
    · simp [handle_message, _handle_tool_call, hn, hs, htool, sessionContext, hsess,
        he, pyShowOpt]
    · simp [handle_message, _handle_tool_call, hn, hs, htool, sessionContext, hsess,
        he, pyShowOpt]

/-- C7 amended witness: a succeeding call on session `s1` appends exactly the
expected record. -/
theorem history_append_only_on_success_witness :
    (handle_message [("t2".data, okTool)] [("s1".data, demoSession)] [] 9 callOkMsg).1 =
      dset [("s1".data, demoSession)] ("s1".data)
        { demoSession with tool_calls := demoSession.tool_calls ++
            [{ tool_name := "t2".data, parameters := (), result := (), timestamp := 4 }] } ∧
    (handle_message [("t2".data, okTool)] [("s1".data, demoSession)] [] 9 callOkMsg).2 =
      { type := MCPMessageType.toolsCall, id := "m3".data,
        data := RespData.toolCallData ("t2".data) () (9 - 4), timestamp := 9 } :=
  (history_append_only_on_success [("t2".data, okTool)] [("s1".data, demoSession)] [] 9
    callOkMsg ("t2".data) okTool ("s1".data) demoSession rfl rfl rfl rfl rfl).1 () rfl

/-- C8 counterexample: on a connection that never sent `initialize` (the
session map is empty), a `tools/call` message is dispatched and processed as a
perfectly normal request — the registered tool runs with an empty context and
its result is returned — rather than being rejected. -/
theorem uninitialized_call_tool_processed_counterexample :
    handle_message [("query_argo_database".data, okTool)] ([] : SessionMap Unit) [] 5
        uninitCallMsg
      = ([], { type := MCPMessageType.toolsCall, id := "m4".data,
               data := RespData.toolCallData ("query_argo_database".data) () 2,
               timestamp := 5 }) := by
  decide

/-- C8 amended: the server keeps no per-connection state machine —
`handle_message` dispatches on the message type alone, so a `tools/call`
arriving before any `initialize` (empty session map) is executed normally with
an empty context, returns its result, and records no history. -/
theorem no_connection_state_machine {V : Type}
    (tools : List (Str × MCPTool V)) (fresh : Str) (now : Int)
    (msg : MCPMessage V) (name : Str) (tool : MCPTool V) (r : V)
    (htype : msg.type = MCPMessageType.toolsCall)
    (hname : msg.data.tool_name = some name)
    (htool : dget tools name = some tool)
    (hexec : tool.execute msg.data.parameters [] = Except.ok r) :
    handle_message tools [] fresh now msg =
      ([], { type := MCPMessageType.toolsCall, id := msg.id,
             data := RespData.toolCallData name r (now - msg.timestamp),
             timestamp := now }) := by
  rcases msg with ⟨ty, mid, mdata, mts⟩
  have hty : ty = MCPMessageType.toolsCall := htype
  subst hty
  have hn : mdata.tool_name = some name := hname
  have hx : tool.execute mdata.parameters [] = Except.ok r := hexec
  cases hsid : mdata.session_id with
  | none =>
    simp [handle_message, _handle_tool_call, hn, hsid, htool, sessionContext, dget,
      hx, pyShowOpt]
  | some sid =>
    simp [handle_message, _handle_tool_call, hn, hsid, htool, sessionContext, dget,
      hx, pyShowOpt]

/-- C8 amended witness: a call with an unknown session id (none supplied) on an
empty session map still gets a normal `tools/call` response. -/
theorem no_connection_state_machine_witness :
    handle_message [("get_float_metadata".data, okTool)] ([] : SessionMap Unit) [] 12
        uninitCallMsg2
      = ([], { type := MCPMessageType.toolsCall, id := "m5".data,
               data := RespData.toolCallData ("get_float_metadata".data) () (12 - 10),
               timestamp := 12 }) :=
  no_connection_state_machine [("get_float_metadata".data, okTool)] [] 12 uninitCallMsg2
    ("get_float_metadata".data) okTool () rfl rfl rfl rfl

/-- C9: when the raw LLM response text contains no fenced sql block,
`extract_sql_query` extracts nothing (`none`) and the answer `run_rag_query`
returns is the full input text. -/
theorem synthesis_no_fence_prose_only (t : Str) (h : ¬ HasFencedSqlBlock t) :
    (run_rag_query t).sql_query = none ∧ (run_rag_query t).answer = t := by
  have hscan : fenceScan t = false := by
    cases hb : fenceScan t with
    | false => rfl
    | true => exact absurd ((hasFencedSqlBlock_iff t).2 hb) h
  refine ⟨?_, rfl⟩
  show extract_sql_query t = none
  unfold fenceScan at hscan
  cases h1 : splitFirstCI ("```sql".data) t with
  | none => simp [extract_sql_query, h1]
  | some pr =>
    rcases pr with ⟨a, rest⟩
    rw [h1] at hscan
    have hscan' : (splitFirstCI ("```".data) rest).isSome = false := hscan
    cases h2 : splitFirstCI ("```".data) rest with
    | none => simp [extract_sql_query, h1, h2]
    | some pr2 => rw [h2] at hscan'; simp at hscan'

/-- C9 witness: a prose-only response degrades gracefully. -/
theorem synthesis_no_fence_prose_only_witness :
    (run_rag_query proseText).sql_query = none ∧
    (run_rag_query proseText).answer = proseText :=
  synthesis_no_fence_prose_only proseText
    (fun hb => absurd ((hasFencedSqlBlock_iff proseText).1 hb) (by decide))

/-- C10: handling an `initialize` message whose data carries a session id that
already exists in the session map unconditionally replaces that session's entry
with a fresh one — empty context map, empty tool-call history, `created_at`
equal to the message timestamp. -/
theorem init_replaces_existing_session {V : Type}
    (tools : List (Str × MCPTool V)) (sessions : SessionMap V) (fresh : Str)
    (now : Int) (msg : MCPMessage V) (sid : Str) (old : Session V)
    (htype : msg.type = MCPMessageType.initType)
    (hsid : msg.data.session_id = some sid) (hne : sid ≠ [])
    (_hold : dget sessions sid = some old) :
    dget (handle_message tools sessions fresh now msg).1 sid =
      some { created_at := msg.timestamp, context := [], tool_calls := [] } := by
  rcases msg with ⟨ty, mid, mdata, mts⟩
  have hty : ty = MCPMessageType.initType := htype
  subst hty
  have hs : mdata.session_id = some sid := hsid
  simp [handle_message, _handle_init, hs, hne, dget_dset_self]

/-- C10 witness: re-initialising the known session `s9` (whose old entry has
non-trivial context and history) leaves a fresh entry with `created_at = 42`,
the message timestamp. -/
theorem init_replaces_existing_session_witness :
    dget (handle_message ([] : List (Str × MCPTool Unit)) [("s9".data, busySession)]
        ("u".data) 50 reinitMsg).1 ("s9".data) =
      some { created_at := 42, context := [], tool_calls := [] } :=
  init_replaces_existing_session [] [("s9".data, busySession)] ("u".data) 50 reinitMsg
    ("s9".data) busySession rfl rfl (by decide) rfl
